import Mathlib

/-!
Verification of the go-api-utils repository (authentication / validation helper
cluster and query/pagination helpers).

The Go sources are shallowly embedded: every pure helper becomes a Lean
function; Go machine integers are modelled as `Int` with an explicit 64-bit
wrap (`wrap64`) exactly at the operations where Go performs 64-bit arithmetic
that can overflow; fallible operations return `Except`/`Option`; Go `panic`
becomes an explicit constructor.  External collaborators (the golang-jwt/v5
library, bcrypt, GORM, Echo) are modelled by their documented observable
behaviour at the call sites the repository uses, never simplified away:
`jwtParseWithClaims` reproduces golang-jwt v5's `ParseWithClaims` pipeline
(keyfunc, signature check, then registered-claims validation of `exp` and
`nbf`), and the HMAC primitive is modelled as an ideal MAC (a concrete
injective tagging function), which is faithful for every claim here since none
depends on forging or colliding MACs.
-/

deriving instance DecidableEq for Except

/-! ## Models of Go standard-library string helpers (over `List Char`). -/

/-- Go `unicode.IsSpace` restricted to the ASCII whitespace characters that
occur in HTTP headers and JSON field values. -/
def goIsSpace (c : Char) : Bool :=
  c = ' ' ∨ c = '\t' ∨ c = '\n' ∨ c = '\r'

/-- Drop leading characters satisfying `p`. -/
def dropWhileList (p : Char → Bool) : List Char → List Char
  | [] => []
  | c :: cs => if p c then dropWhileList p cs else c :: cs

/-- Go `strings.TrimSpace` (ASCII model): strip leading and trailing whitespace. -/
def goTrimSpace (s : String) : String :=
  ⟨(dropWhileList goIsSpace ((dropWhileList goIsSpace s.data.reverse)).reverse)⟩

/-- Split a character list at every character satisfying `p` (separators are
dropped; empty segments are kept). -/
def splitListP (p : Char → Bool) : List Char → List (List Char)
  | [] => [[]]
  | c :: cs =>
    let r := splitListP p cs
    if p c then [] :: r
    else
      match r with
      | h :: t => (c :: h) :: t
      | [] => [[c]]

/-- Go `strings.Split(s, sep)` for a single-character separator. -/
def goSplitChar (sep : Char) (s : String) : List String :=
  (splitListP (fun c => c = sep) s.data).map (fun l => ⟨l⟩)

/-- Go `strings.Fields`: the maximal non-empty substrings separated by runs of
whitespace. -/
def goFields (s : String) : List String :=
  ((splitListP goIsSpace s.data).map (fun l => (⟨l⟩ : String))).filter (fun w => w ≠ "")

/-- ASCII lower-casing of a string (model of the case folding Go
`strings.EqualFold` performs on ASCII input). -/
def asciiLower (s : String) : String :=
  ⟨s.data.map Char.toLower⟩

/-- Go `strings.EqualFold` (ASCII model). -/
def goEqualFold (a b : String) : Bool :=
  asciiLower a = asciiLower b

/-- Digits of a character list interpreted in base 10, `none` if any character
is not a digit or the list is empty. -/
def parseDigits : List Char → Option Nat
  | [] => none
  | cs =>
    if cs.all Char.isDigit then
      some (cs.foldl (fun a c => a * 10 + (c.toNat - 48)) 0)
    else none

/-- Model of Go `strconv.Atoi` on a 64-bit platform: optional sign, decimal
digits, error (here `none`) on empty input, stray characters, or overflow of
the `int` (64-bit) range. -/
def goAtoi (s : String) : Option Int :=
  let cs := s.data
  let signed : Int × List Char :=
    match cs with
    | '-' :: rest => (-1, rest)
    | '+' :: rest => (1, rest)
    | _ => (1, cs)
  match parseDigits signed.2 with
  | none => none
  | some n =>
    let v : Int := signed.1 * (n : Int)
    if -(2 ^ 63) ≤ v ∧ v ≤ 2 ^ 63 - 1 then some v else none

/-- Two's-complement wrap of an unbounded integer into the `int64` range,
modelling Go 64-bit `int` arithmetic overflow. -/
def wrap64 (x : Int) : Int :=
  (x + 2 ^ 63) % 2 ^ 64 - 2 ^ 63

/-! ## JWT data model (pkg-echo/auth/jwt.go and the golang-jwt/v5 pipeline). -/

/-- JWT signing algorithms that occur in this development. -/
inductive Alg where
  | HS256
  | HS384
  | HS512
  | RS256
  | ES256
  | AlgNone
deriving DecidableEq, Repr

/-- The `alg` header value of each algorithm. -/
def Alg.name : Alg → String
  | .HS256 => "HS256"
  | .HS384 => "HS384"
  | .HS512 => "HS512"
  | .RS256 => "RS256"
  | .ES256 => "ES256"
  | .AlgNone => "none"

/-- The source's keyfunc accepts exactly the `*jwt.SigningMethodHMAC` family. -/
def Alg.isHMAC : Alg → Bool
  | .HS256 => true
  | .HS384 => true
  | .HS512 => true
  | _ => false

/-- Payload of the basic `Claims` struct (user_id, email, role). -/
structure BasicPayload where
  userID : Int
  email : String
  role : String
deriving DecidableEq, Repr

/-- A scalar JSON value inside a custom token's `data` map. -/
inductive JVal where
  | jstr (s : String)
  | jnum (n : Int)
  | jbool (b : Bool)
deriving DecidableEq, Repr

/-- Payload of the `CustomClaims` struct: the `data` map, modelled as an
association list with distinct keys. -/
def CustomPayload : Type := List (String × JVal)

instance : DecidableEq CustomPayload := by
  unfold CustomPayload
  infer_instance

/-- A structurally decoded JWT: algorithm header, claim payload, the
registered claims the repository uses (`exp`, `nbf`, `iat` as unix seconds),
and the signature over the signing input. -/
structure JWTTokenData (α : Type) where
  alg : Alg
  payload : α
  exp : Option Int
  nbf : Option Int
  iat : Option Int
  sig : String
deriving DecidableEq

/-- A token string: either structurally malformed (not compact-JWT decodable)
or a well-formed token. -/
inductive TokenStr (α : Type) where
  | malformed
  | wellFormed (t : JWTTokenData α)
deriving DecidableEq

/-- Rendering of an optional integer claim ("" when absent). -/
def optIntStr : Option Int → String
  | none => ""
  | some n => toString n

/-- Concrete encoding of the basic payload used in the signing input. -/
def encodeBasicPayload (p : BasicPayload) : String :=
  "uid=" ++ toString p.userID ++ ";email=" ++ p.email ++ ";role=" ++ p.role

/-- Concrete encoding of one custom `data` entry. -/
def encodeJVal : JVal → String
  | .jstr s => "s:" ++ s
  | .jnum n => "n:" ++ toString n
  | .jbool b => "b:" ++ toString b

/-- Concrete encoding of the custom payload used in the signing input. -/
def encodeCustomPayload (p : CustomPayload) : String :=
  String.intercalate "," (p.map (fun kv => kv.1 ++ ":" ++ encodeJVal kv.2))

/-- The signing input of a token: model of `base64url(header).base64url(claims)`.
It never contains a dot, so the compact codec below can split on dots. -/
def signingInput (enc : α → String) (alg : Alg) (payload : α)
    (exp nbf iat : Option Int) : String :=
  alg.name ++ "!" ++ enc payload ++ "!" ++ optIntStr exp ++ "!" ++ optIntStr nbf
    ++ "!" ++ optIntStr iat

/-- Ideal model of the HMAC family: the MAC of a message under a key is a
concrete tag determined by algorithm, message and key.  Verification in the
v5 library is equality of the recomputed MAC with the token's signature. -/
def hmacMac (alg : Alg) (msg key : String) : String :=
  "mac<" ++ alg.name ++ "|" ++ msg ++ "|" ++ key ++ ">"

/-- The errors observable from `ValidateToken` / `ValidateCustomToken`:
the golang-jwt v5 parse errors, plus the package's own two error values. -/
inductive JWTError where
  /-- v5 `ErrTokenMalformed`: the string is not a decodable compact JWT. -/
  | malformed
  /-- v5 `ErrTokenUnverifiable` wrapping `auth.ErrInvalidToken`, produced when
  the source's keyfunc rejects a non-HMAC signing method. -/
  | keyfuncInvalidToken
  /-- v5 `ErrTokenSignatureInvalid`. -/
  | signatureInvalid
  /-- v5 `ErrTokenInvalidClaims` wrapping `ErrTokenExpired`. -/
  | claimsExpired
  /-- v5 `ErrTokenInvalidClaims` wrapping `ErrTokenNotValidYet`. -/
  | claimsNotYetValid
  /-- The package-level `auth.ErrInvalidToken` value. -/
  | errInvalidToken
  /-- The package-level `auth.ErrExpiredToken` value. -/
  | errExpiredToken
deriving DecidableEq, Repr

/-- The Go `Error()` message of each modelled error value. -/
def JWTError.message : JWTError → String
  | .malformed => "token is malformed"
  | .keyfuncInvalidToken => "token is unverifiable: error while executing keyfunc: invalid token"
  | .signatureInvalid => "token signature is invalid"
  | .claimsExpired => "token has invalid claims: token is expired"
  | .claimsNotYetValid => "token has invalid claims: token is not valid yet"
  | .errInvalidToken => "invalid token"
  | .errExpiredToken => "token expired"

/-- v5 claim validation of `exp` (always checked when present, zero leeway):
valid iff the verification instant is strictly before the expiry. -/
def expOK (exp : Option Int) (now : Int) : Bool :=
  match exp with
  | none => true
  | some e => now < e

/-- v5 claim validation of `nbf` (always checked when present, zero leeway):
valid iff the verification instant is not before the not-before instant. -/
def nbfOK (nbf : Option Int) (now : Int) : Bool :=
  match nbf with
  | none => true
  | some n => ¬ now < n

/-- Model of golang-jwt v5 `jwt.ParseWithClaims` with the keyfunc the source
passes (both `ValidateToken` and `ValidateCustomToken` pass the same one):
structural parse, keyfunc (which rejects non-HMAC methods with
`auth.ErrInvalidToken`), signature verification against the returned key, then
registered-claims validation (`exp`, then `nbf`; `iat` is not verified by
default).  On success the library sets `token.Valid = true`, returned here as
the second component. -/
def jwtParseWithClaims (enc : α → String) (ts : TokenStr α) (secretKey : String)
    (now : Int) : Except JWTError (JWTTokenData α × Bool) :=
  match ts with
  | .malformed => .error .malformed
  | .wellFormed t =>
    if ¬ t.alg.isHMAC then .error .keyfuncInvalidToken
    else if t.sig ≠ hmacMac t.alg (signingInput enc t.alg t.payload t.exp t.nbf t.iat) secretKey then
      .error .signatureInvalid
    else if ¬ expOK t.exp now then .error .claimsExpired
    else if ¬ nbfOK t.nbf now then .error .claimsNotYetValid
    else .ok (t, true)

/-- The `*Claims` value `ValidateToken` returns: payload fields plus the
registered claims carried by the token. -/
structure BasicClaims where
  userID : Int
  email : String
  role : String
  exp : Option Int
  nbf : Option Int
  iat : Option Int
deriving DecidableEq, Repr

/-- View of a parsed token as the `*Claims` value handed back to the caller. -/
def claimsOfBasic (t : JWTTokenData BasicPayload) : BasicClaims :=
  ⟨t.payload.userID, t.payload.email, t.payload.role, t.exp, t.nbf, t.iat⟩

/-- The signature `GenerateToken` computes (`token.SignedString`). -/
def basicSig (alg : Alg) (p : BasicPayload) (exp nbf iat : Option Int)
    (secretKey : String) : String :=
  hmacMac alg (signingInput encodeBasicPayload alg p exp nbf iat) secretKey

/-- pkg-echo/auth/jwt.go `GenerateToken`: HS256 token with `exp = now + expiry`
and `iat = now` (`now` models the issuing process's `time.Now()`, `expiry` the
duration in seconds).  Signing never fails for HS256, so the result is total. -/
def GenerateToken (userID : Int) (email role secretKey : String)
    (expiry : Int) (now : Int) : JWTTokenData BasicPayload :=
  let payload : BasicPayload := ⟨userID, email, role⟩
  { alg := .HS256
    payload := payload
    exp := some (now + expiry)
    nbf := none
    iat := some now
    sig := basicSig .HS256 payload (some (now + expiry)) none (some now) secretKey }

/-- The signature `GenerateCustomToken` computes. -/
def customSig (alg : Alg) (p : CustomPayload) (exp nbf iat : Option Int)
    (secretKey : String) : String :=
  hmacMac alg (signingInput encodeCustomPayload alg p exp nbf iat) secretKey

/-- pkg-echo/auth/jwt.go `GenerateCustomToken`. -/
def GenerateCustomToken (data : CustomPayload) (secretKey : String)
    (expiry : Int) (now : Int) : JWTTokenData CustomPayload :=
  { alg := .HS256
    payload := data
    exp := some (now + expiry)
    nbf := none
    iat := some now
    sig := customSig .HS256 data (some (now + expiry)) none (some now) secretKey }

/-- pkg-echo/auth/jwt.go `ValidateToken`: parse with the HMAC-only keyfunc,
propagate any parse error, re-check the claims type assertion and `token.Valid`
(always true after a successful v5 parse), then the source's explicit expiry
check (`claims.ExpiresAt.Before(time.Now())`), which is unreachable for
expired tokens because the v5 parse already rejected them. -/
def ValidateToken (ts : TokenStr BasicPayload) (secretKey : String)
    (now : Int) : Except JWTError BasicClaims :=
  match jwtParseWithClaims encodeBasicPayload ts secretKey now with
  | .error e => .error e
  | .ok (t, valid) =>
    if ¬ valid then .error .errInvalidToken
    else
      match t.exp with
      | some e => if e < now then .error .errExpiredToken else .ok (claimsOfBasic t)
      | none => .ok (claimsOfBasic t)

/-- pkg-echo/auth/jwt.go `ValidateCustomToken`: same pipeline over
`CustomClaims`; on success returns `claims.Data`. -/
def ValidateCustomToken (ts : TokenStr CustomPayload) (secretKey : String)
    (now : Int) : Except JWTError CustomPayload :=
  match jwtParseWithClaims encodeCustomPayload ts secretKey now with
  | .error e => .error e
  | .ok (t, valid) =>
    if ¬ valid then .error .errInvalidToken
    else
      match t.exp with
      | some e => if e < now then .error .errExpiredToken else .ok t.payload
      | none => .ok t.payload

/-! ## Compact token codec (model of base64url JWT wire decoding).

The middleware receives the token as a string; these functions model the
compact-serialization decode the jwt library performs.  The representation is
`alg.claims.sig` with the claim fields in a fixed order, matching the
structured `JWTTokenData` exactly; strings are unescaped, which is faithful
for the separator-free concrete values used in this development. -/

/-- Parse an `alg` header value. -/
def parseAlg (s : String) : Option Alg :=
  if s = "HS256" then some .HS256
  else if s = "HS384" then some .HS384
  else if s = "HS512" then some .HS512
  else if s = "RS256" then some .RS256
  else if s = "ES256" then some .ES256
  else if s = "none" then some .AlgNone
  else none

/-- Strip a leading character sequence, or fail. -/
def stripLeading : List Char → List Char → Option (List Char)
  | [], s => some s
  | _ :: _, [] => none
  | k :: ks, c :: cs => if c = k then stripLeading ks cs else none

/-- Strip a required `key=` prefix from a claim segment. -/
def stripKey (key s : String) : Option String :=
  match stripLeading (key.data ++ ['=']) s.data with
  | some rest => some ⟨rest⟩
  | none => none

/-- Parse an optional integer claim ("" encodes absence). -/
def parseOptInt (s : String) : Option (Option Int) :=
  if s = "" then some none
  else match goAtoi s with
    | some n => some (some n)
    | none => none

/-- Decode the claims segment of a basic token. -/
def parseBasicClaims (s : String) : Option (BasicPayload × Option Int × Option Int × Option Int) :=
  match goSplitChar ';' s with
  | [fuid, femail, frole, fexp, fnbf, fiat] =>
    match stripKey "uid" fuid, stripKey "email" femail, stripKey "role" frole,
        stripKey "exp" fexp, stripKey "nbf" fnbf, stripKey "iat" fiat with
    | some uid, some email, some role, some expS, some nbfS, some iatS =>
      match goAtoi uid, parseOptInt expS, parseOptInt nbfS, parseOptInt iatS with
      | some n, some e, some b, some i => some (⟨n, email, role⟩, e, b, i)
      | _, _, _, _ => none
    | _, _, _, _, _, _ => none
  | _ => none

/-- Decode a compact basic-claims token string. -/
def parseCompactBasic (s : String) : TokenStr BasicPayload :=
  match goSplitChar '.' s with
  | [algS, claimsS, sigS] =>
    match parseAlg algS, parseBasicClaims claimsS with
    | some alg, some (p, e, b, i) => .wellFormed ⟨alg, p, e, b, i, sigS⟩
    | _, _ => .malformed
  | _ => .malformed

/-- Encode a basic token as a compact string (`parseCompactBasic` is its
left inverse on separator-free field values). -/
def encodeCompactBasic (t : JWTTokenData BasicPayload) : String :=
  t.alg.name ++ ".uid=" ++ toString t.payload.userID ++ ";email=" ++ t.payload.email
    ++ ";role=" ++ t.payload.role ++ ";exp=" ++ optIntStr t.exp ++ ";nbf="
    ++ optIntStr t.nbf ++ ";iat=" ++ optIntStr t.iat ++ "." ++ t.sig

/-- Decode one `data` entry of a custom token (string values only; richer
values are not needed by any concrete input in this development). -/
def parseJEntry (s : String) : Option (String × JVal) :=
  match goSplitChar ':' s with
  | [k, v] => some (k, .jstr v)
  | _ => none

/-- Decode the claims segment of a custom token. -/
def parseCustomClaims (s : String) :
    Option (CustomPayload × Option Int × Option Int × Option Int) :=
  match goSplitChar ';' s with
  | [fdata, fexp, fnbf, fiat] =>
    match stripKey "data" fdata, stripKey "exp" fexp, stripKey "nbf" fnbf,
        stripKey "iat" fiat with
    | some dataS, some expS, some nbfS, some iatS =>
      let entries := if dataS = "" then some [] else
        (goSplitChar ',' dataS).foldr
          (fun e acc => match parseJEntry e, acc with
            | some kv, some l => some (kv :: l)
            | _, _ => none) (some [])
      match entries, parseOptInt expS, parseOptInt nbfS, parseOptInt iatS with
      | some d, some e, some b, some i => some (d, e, b, i)
      | _, _, _, _ => none
    | _, _, _, _ => none
  | _ => none

/-- Decode a compact custom-claims token string. -/
def parseCompactCustom (s : String) : TokenStr CustomPayload :=
  match goSplitChar '.' s with
  | [algS, claimsS, sigS] =>
    match parseAlg algS, parseCustomClaims claimsS with
    | some alg, some (p, e, b, i) => .wellFormed ⟨alg, p, e, b, i, sigS⟩
    | _, _ => .malformed
  | _ => .malformed

/-! ## Echo response and JWT middleware models
(pkg-echo/middleware/jwt.go, response.Unauthorized). -/

/-- The JSON body `response.Error` writes: `Response{Success: false, Error: msg}`. -/
structure RespBody where
  success : Bool
  error : String
deriving DecidableEq, Repr

/-- A value stored into the Echo context by the middleware. -/
inductive CtxVal where
  | vInt (n : Int)
  | vStr (s : String)
  | vClaims (c : BasicClaims)
  | vData (d : CustomPayload)
  | vJ (j : JVal)
deriving DecidableEq

/-- Outcome of running the middleware-wrapped handler chain on one request:
either an early response is written and the wrapped handler is never invoked,
or the wrapped handler is invoked with the listed context entries set. -/
inductive MWResult where
  | respond (status : Nat) (body : RespBody)
  | proceed (ctx : List (String × CtxVal))
deriving DecidableEq

/-- A request as the middleware observes it: `c.Request().Header.Get` returns
"" when the Authorization header is absent. -/
structure EchoRequest where
  authHeader : String

/-- pkg-echo/middleware/jwt.go `JWTConfig` (first variant). -/
structure JWTConfig where
  secretKey : String
  useCustomToken : Bool
  skipperFunc : Option (EchoRequest → Bool)

/-- The Go guard `config.SkipperFunc != nil && config.SkipperFunc(c)`. -/
def skipperBypasses (skipperFunc : Option (EchoRequest → Bool)) (req : EchoRequest) : Bool :=
  match skipperFunc with
  | some f => f req
  | none => false

/-- Context entries set on a successful custom-token validation: `token_data`
plus convenience extractions of `user_id`/`email`/`role` when present. -/
def ctxSetsCustom (data : CustomPayload) : List (String × CtxVal) :=
  [("token_data", CtxVal.vData data)]
    ++ (match data.lookup "user_id" with | some v => [("user_id", CtxVal.vJ v)] | none => [])
    ++ (match data.lookup "email" with | some v => [("email", CtxVal.vJ v)] | none => [])
    ++ (match data.lookup "role" with | some v => [("role", CtxVal.vJ v)] | none => [])

/-- Context entries set on a successful basic-token validation. -/
def ctxSetsBasic (claims : BasicClaims) : List (String × CtxVal) :=
  [("claims", CtxVal.vClaims claims), ("user_id", CtxVal.vInt claims.userID),
    ("email", CtxVal.vStr claims.email)]
    ++ (if claims.role ≠ "" then [("role", CtxVal.vStr claims.role)] else [])

/-- The per-request handler the first `JWTMiddleware` variant wraps around
`next` (pkg-echo/middleware/jwt.go lines 30-83): skipper, header extraction
via `strings.Fields` with case-insensitive `Bearer`, then validation and
error dispatch on pointer equality with `auth.ErrExpiredToken`. -/
def JWTMiddlewareHandle (config : JWTConfig) (req : EchoRequest) (now : Int) : MWResult :=
  if skipperBypasses config.skipperFunc req then .proceed []
  else
    let authHeader := req.authHeader
    if authHeader = "" then .respond 401 ⟨false, "missing authorization header"⟩
    else
      let parts := goFields authHeader
      if parts.length ≠ 2 ∨ ¬ goEqualFold (parts.headD "") "Bearer" then
        .respond 401 ⟨false, "invalid authorization header format"⟩
      else
        let tokenString := parts.getD 1 ""
        if config.useCustomToken then
          match ValidateCustomToken (parseCompactCustom tokenString) config.secretKey now with
          | .error e =>
            if e = .errExpiredToken then .respond 401 ⟨false, "token expired"⟩
            else .respond 401 ⟨false, "invalid token"⟩
          | .ok data => .proceed (ctxSetsCustom data)
        else
          match ValidateToken (parseCompactBasic tokenString) config.secretKey now with
          | .error e =>
            if e = .errExpiredToken then .respond 401 ⟨false, "token expired"⟩
            else .respond 401 ⟨false, "invalid token"⟩
          | .ok claims => .proceed (ctxSetsBasic claims)

/-- Result of calling the `JWTMiddleware` constructor: Go `panic` at
construction time, or the built per-request handler. -/
inductive MWBuild where
  | panicked (msg : String)
  | built (h : EchoRequest → Int → MWResult)

/-- Whether construction panicked. -/
def MWBuild.isPanicked : MWBuild → Bool
  | .panicked _ => true
  | .built _ => false

/-- pkg-echo/middleware/jwt.go `JWTMiddleware` (first variant, lines 25-84):
panics when the secret key is empty, before any request is handled; otherwise
returns the wrapping handler. -/
def JWTMiddleware (config : JWTConfig) : MWBuild :=
  if config.secretKey = "" then .panicked "JWT secret key cannot be empty"
  else .built (JWTMiddlewareHandle config)

/-- Configuration of the second middleware variant in the same file. -/
structure JWTConfigV2 where
  secretKey : String
  skipperFunc : Option (EchoRequest → Bool)

/-- The per-request handler of the second `JWTMiddleware` variant
(pkg-echo/middleware/jwt.go lines 130-171): `strings.Split` on a single
space, case-sensitive `Bearer`, and a single merged error message (its JSON
body is a bare error map, modelled with the same body record). -/
def JWTMiddlewareHandleV2 (config : JWTConfigV2) (req : EchoRequest) (now : Int) : MWResult :=
  if skipperBypasses config.skipperFunc req then .proceed []
  else
    let authHeader := req.authHeader
    if authHeader = "" then .respond 401 ⟨false, "missing authorization header"⟩
    else
      let parts := goSplitChar ' ' authHeader
      if parts.length ≠ 2 ∨ parts.headD "" ≠ "Bearer" then
        .respond 401 ⟨false, "invalid authorization header format"⟩
      else
        match ValidateToken (parseCompactBasic (parts.getD 1 "")) config.secretKey now with
        | .error _ => .respond 401 ⟨false, "invalid or expired token"⟩
        | .ok claims =>
          .proceed [("user_id", CtxVal.vInt claims.userID), ("email", CtxVal.vStr claims.email),
            ("role", CtxVal.vStr claims.role), ("claims", CtxVal.vClaims claims)]

/-- pkg-echo/middleware/jwt.go `JWTMiddleware` (second variant, lines 125-172):
identical empty-secret panic guard. -/
def JWTMiddlewareV2 (config : JWTConfigV2) : MWBuild :=
  if config.secretKey = "" then .panicked "JWT secret key cannot be empty"
  else .built (JWTMiddlewareHandleV2 config)

/-! ## Request binder / required-field validation
(pkg-echo/request/request.go, pkg-echo/validator/validator.go).

A bound Go struct is modelled by its reflected field list: each field carries
its raw `json` tag and either a string value or the marker that it is not a
string-typed field (the source only collects string fields).  Go map iteration
order is unspecified, so `ValidateRequired`, which ranges over a map, is
modelled on an explicit entry list and the theorems quantify over every
permutation of the map's entries. -/

/-- A JSON value of a struct field: a string, or a non-string field. -/
inductive FieldVal where
  | strV (s : String)
  | nonStr
deriving DecidableEq

/-- One reflected struct field: raw `json` tag and value. -/
structure StructField where
  tag : String
  val : FieldVal
deriving DecidableEq

/-- Go map assignment `m[k] = v`: replace the entry when the key is present,
append otherwise (keys stay distinct). -/
def mapUpdate (m : List (String × String)) (k v : String) : List (String × String) :=
  match m with
  | [] => [(k, v)]
  | (k1, v1) :: rest => if k1 = k then (k, v) :: rest else (k1, v1) :: mapUpdate rest k v

/-- The `values` map `RequireFields` builds: for every field whose json tag is
neither empty nor "-", take the first comma-separated tag component as the
name and record the value when the field is string-kinded. -/
def collectStringFields (fields : List StructField) : List (String × String) :=
  fields.foldl
    (fun acc f =>
      if f.tag = "" ∨ f.tag = "-" then acc
      else
        let name := (goSplitChar ',' f.tag).headD ""
        match f.val with
        | .strV s => mapUpdate acc name s
        | .nonStr => acc)
    []

/-- validator.go `IsEmpty` (named `validatorIsEmpty` here because Lean's
library already declares `IsEmpty`): empty or whitespace-only after trimming. -/
def validatorIsEmpty (s : String) : Bool :=
  goTrimSpace s = ""

/-- validator.go `ValidateRequired` on the map's entries in one concrete
iteration order: first entry with an empty (after trimming) value yields
`(false, name ++ " is required")`. -/
def ValidateRequired : List (String × String) → Bool × String
  | [] => (true, "")
  | (name, value) :: rest =>
    if validatorIsEmpty value then (false, name ++ " is required") else ValidateRequired rest

/-- The `fieldsToCheck` map `RequireFields` builds: `fieldsToCheck[key] =
values[key]` for each required name (a missing map entry reads as the Go
zero value ""). -/
def fieldsToCheckOf (fields : List StructField) (requiredJSON : List String) :
    List (String × String) :=
  requiredJSON.foldl
    (fun acc key => mapUpdate acc key (((collectStringFields fields).lookup key).getD ""))
    []

/-- request.go `RequireFields`, explicit about the iteration order `enum` in
which Go enumerates the `fieldsToCheck` map (any permutation of its entries;
see `validEnum`). -/
def RequireFields (fields : List StructField) (requiredJSON : List String)
    (enum : List (String × String)) : Bool × String :=
  if requiredJSON = [] then (true, "")
  else ValidateRequired enum

/-- An admissible Go map iteration order: a permutation of the map's entries. -/
def validEnum (fields : List StructField) (requiredJSON : List String)
    (enum : List (String × String)) : Prop :=
  enum.Perm (fieldsToCheckOf fields requiredJSON)

/-- Outcome of `BindAndRequireFields`: the returned Bool and the response it
wrote, if any. -/
structure BindOutcome where
  ok : Bool
  written : Option (Nat × RespBody)
deriving DecidableEq

/-- request.go `BindAndRequireFields`: bind (`none` models a `c.Bind` error),
400 "invalid request body" on bind failure; then `RequireFields`, 400 with its
message on validation failure. -/
def BindAndRequireFields (bindResult : Option (List StructField))
    (requiredJSON : List String) (enum : List (String × String)) : BindOutcome :=
  match bindResult with
  | none => ⟨false, some (400, ⟨false, "invalid request body"⟩)⟩
  | some fields =>
    match RequireFields fields requiredJSON enum with
    | (true, _) => ⟨true, none⟩
    | (false, msg) => ⟨false, some (400, ⟨false, msg⟩)⟩

/-- The value the code effectively checks for a required name: the collected
string-field value, or "" when the name is absent from the collected map. -/
def requiredFieldValue (fields : List StructField) (key : String) : String :=
  ((collectStringFields fields).lookup key).getD ""

/-! ## GORM pagination (pkg-echo/orm/pagination.go). -/

/-- The slice of GORM query state this library writes: the limit and offset
clauses. -/
structure GormDB where
  limitVal : Option Int := none
  offsetVal : Option Int := none
deriving DecidableEq, Repr

/-- GORM `db.Limit(n)`. -/
def GormDB.Limit (db : GormDB) (n : Int) : GormDB :=
  { db with limitVal := some n }

/-- GORM `db.Offset(n)`. -/
def GormDB.Offset (db : GormDB) (n : Int) : GormDB :=
  { db with offsetVal := some n }

/-- pagination.go `ApplyPagination`: clamp page to at least 1, fall back to
perPage 10 outside (0, 1000], then apply limit and offset; the offset
multiplication is Go 64-bit `int` arithmetic, hence `wrap64`. -/
def ApplyPagination (db : GormDB) (page perPage : Int) : GormDB :=
  let page := if page < 1 then 1 else page
  let perPage := if perPage ≤ 0 ∨ perPage > 1000 then 10 else perPage
  let offset := wrap64 ((page - 1) * perPage)
  (db.Limit perPage).Offset offset

/-- pagination.go `CountAndPaginate`, restricted to the pagination state it
applies to the fetch query: it re-clamps page and perPage with the same
guards and then calls `ApplyPagination` (the count runs on a fresh session of
`base` without limit/offset and is external database behaviour). -/
def CountAndPaginateQuery (base : GormDB) (page perPage : Int) : GormDB :=
  let page := if page < 1 then 1 else page
  let perPage := if perPage ≤ 0 ∨ perPage > 1000 then 10 else perPage
  ApplyPagination base page perPage

/-! ## SQL query templating (pkg/repository/repository.go). -/

/-- repository.go `BuildInsertQuery`. -/
def BuildInsertQuery (table : String) (columns : List String) : String :=
  let placeholders := (List.range columns.length).map (fun i => "$" ++ toString (i + 1))
  "INSERT INTO " ++ table ++ " (" ++ String.intercalate ", " columns ++ ") VALUES ("
    ++ String.intercalate ", " placeholders ++ ") RETURNING id"

/-- repository.go `BuildUpdateQuery`. -/
def BuildUpdateQuery (table : String) (columns : List String) : String :=
  let setClauses := (columns.enum).map (fun ic => ic.2 ++ " = $" ++ toString (ic.1 + 1))
  "UPDATE " ++ table ++ " SET " ++ String.intercalate ", " setClauses
    ++ " WHERE id = $" ++ toString (columns.length + 1)

/-- repository.go `BuildSelectQuery`. -/
def BuildSelectQuery (table : String) (columns : List String) (whereClause : String) : String :=
  let query := "SELECT " ++ String.intercalate ", " columns ++ " FROM " ++ table
  if whereClause ≠ "" then query ++ " WHERE " ++ whereClause else query

/-! ## Password hashing (pkg-echo/auth/password.go). -/

/-- golang.org/x/crypto/bcrypt cost bounds and default. -/
def bcryptMinCost : Int := 4

/-- bcrypt.MaxCost. -/
def bcryptMaxCost : Int := 31

/-- bcrypt.DefaultCost, also password.go's `defaultCost`. -/
def bcryptDefaultCost : Int := 10

/-- Ideal model of `bcrypt.GenerateFromPassword` for costs in the valid
range: an adaptive salted hash, observable here through the cost it embeds in
the produced hash string. -/
def bcryptGenerateFromPassword (password : String) (cost : Int) : String :=
  "bcrypt$" ++ toString cost ++ "$" ++ password

/-- The environment, as `os.Getenv` exposes it: a total map from variable
names to values, "" meaning unset. -/
def GoEnv : Type := String → String

/-- password.go `HashPassword`: start from the default cost; when
`BCRYPT_COST` is non-empty, parses via `strconv.Atoi`, and lies within
`[bcrypt.MinCost, bcrypt.MaxCost]`, use the parsed value. -/
def HashPassword (env : GoEnv) (password : String) : String :=
  let cost := bcryptDefaultCost
  let v := env "BCRYPT_COST"
  let cost :=
    if v ≠ "" then
      match goAtoi v with
      | some n => if bcryptMinCost ≤ n ∧ n ≤ bcryptMaxCost then n else cost
      | none => cost
    else cost
  bcryptGenerateFromPassword password cost

/-- The work factor a given environment resolves to, stated the way the spec
enumerates it: unset, unparseable, or out-of-range overrides are ignored in
favour of the default. -/
def specResolvedCost (env : GoEnv) : Int :=
  let v := env "BCRYPT_COST"
  if v = "" then bcryptDefaultCost
  else
    match goAtoi v with
    | none => bcryptDefaultCost
    | some n => if bcryptMinCost ≤ n ∧ n ≤ bcryptMaxCost then n else bcryptDefaultCost

/-! ## Theorems settling the claims. -/

/-- A value within the int64 range is a fixed point of `wrap64`. -/
theorem wrap64_eq_self (x : Int) (h1 : -(2 ^ 63) ≤ x) (h2 : x ≤ 2 ^ 63 - 1) :
    wrap64 x = x := by
  unfold wrap64
  have h3 : (0 : Int) ≤ x + 2 ^ 63 := by omega
  have h4 : x + 2 ^ 63 < 2 ^ 64 := by omega
  rw [Int.emod_eq_of_lt h3 h4]
  omega

/-- The page the pagination helpers effectively use (spec wording: page values
below 1 fall back to page 1). -/
def specEffectivePage (page : Int) : Int :=
  if page < 1 then 1 else page

/-- The page size the pagination helpers effectively use (spec wording: zero,
negative, or above-1000 values fall back to 10). -/
def specEffectivePerPage (perPage : Int) : Int :=
  if perPage ≤ 0 ∨ perPage > 1000 then 10 else perPage

/-- C8: the query builders are deterministic, column-order-preserving exact
string templates: the spec's concrete INSERT example holds byte-for-byte,
swapping the column order swaps the output accordingly, the documented UPDATE
example holds, and for every table and column list `BuildUpdateQuery` is the
SET-list of positional placeholders in column order followed by
`WHERE id = $(n+1)`, with `BuildInsertQuery` the analogous general template
(determinism is inherent: both are pure functions of their arguments). -/
theorem c8_query_builders_exact :
    BuildInsertQuery "t" ["a", "b"] = "INSERT INTO t (a, b) VALUES ($1, $2) RETURNING id"
  ∧ BuildInsertQuery "t" ["b", "a"] = "INSERT INTO t (b, a) VALUES ($1, $2) RETURNING id"
  ∧ BuildUpdateQuery "products" ["name", "price", "stock"]
      = "UPDATE products SET name = $1, price = $2, stock = $3 WHERE id = $4"
  ∧ BuildSelectQuery "products" ["id", "name", "price"] "" = "SELECT id, name, price FROM products"
  ∧ (∀ (table : String) (columns : List String),
      BuildUpdateQuery table columns
        = "UPDATE " ++ table ++ " SET "
          ++ String.intercalate ", "
              ((columns.enum).map (fun ic => ic.2 ++ " = $" ++ toString (ic.1 + 1)))
          ++ " WHERE id = $" ++ toString (columns.length + 1))
  ∧ (∀ (table : String) (columns : List String),
      BuildInsertQuery table columns
        = "INSERT INTO " ++ table ++ " (" ++ String.intercalate ", " columns ++ ") VALUES ("
          ++ String.intercalate ", "
              ((List.range columns.length).map (fun i => "$" ++ toString (i + 1)))
          ++ ") RETURNING id") := by
  refine ⟨by decide, by decide, by decide, by decide, fun table columns => rfl, fun table columns => rfl⟩

/-- C9: `HashPassword` feeds bcrypt exactly the work factor the spec
describes: the parsed `BCRYPT_COST` value when it is a well-formed integer
within `[bcrypt.MinCost, bcrypt.MaxCost]`, and the default cost 10 whenever
the variable is unset (empty), unparseable, or out of range. -/
theorem c9_hash_cost_resolution (env : GoEnv) (password : String) :
    HashPassword env password = bcryptGenerateFromPassword password (specResolvedCost env) := by
  unfold HashPassword specResolvedCost
  by_cases hv : env "BCRYPT_COST" = ""
  · simp [hv]
  · simp only [hv, if_false, ne_eq, not_false_eq_true, if_true]
    cases hA : goAtoi (env "BCRYPT_COST") with
    | none => simp
    | some n => by_cases hr : bcryptMinCost ≤ n ∧ n ≤ bcryptMaxCost <;> simp [hr]

/-- C10: constructing either `JWTMiddleware` variant panics exactly when the
configured secret key is empty; with a non-empty secret the constructor
returns the wrapping handler without panicking.  Hence every middleware
instance that ever handles a request (a `built` value) was constructed with a
non-empty secret. -/
theorem c10_empty_secret_panics (cfg : JWTConfig) (cfg2 : JWTConfigV2) :
    ((JWTMiddleware cfg).isPanicked = true ↔ cfg.secretKey = "")
  ∧ ((JWTMiddlewareV2 cfg2).isPanicked = true ↔ cfg2.secretKey = "") := by
  constructor
  · unfold JWTMiddleware
    split <;> simp_all [MWBuild.isPanicked]
  · unfold JWTMiddlewareV2
    split <;> simp_all [MWBuild.isPanicked]

/-- Canonical form of `ApplyPagination`: the limit is the effective page
size and the offset the 64-bit product of the effective values. -/
theorem applyPagination_eq (db : GormDB) (page perPage : Int) :
    ApplyPagination db page perPage
      = ⟨some (specEffectivePerPage perPage),
         some (wrap64 ((specEffectivePage page - 1) * specEffectivePerPage perPage))⟩ := rfl

/-- The page clamp is idempotent. -/
theorem specEffectivePage_idem (page : Int) :
    specEffectivePage (specEffectivePage page) = specEffectivePage page := by
  unfold specEffectivePage; split_ifs <;> omega

/-- The page-size fallback is idempotent. -/
theorem specEffectivePerPage_idem (perPage : Int) :
    specEffectivePerPage (specEffectivePerPage perPage) = specEffectivePerPage perPage := by
  unfold specEffectivePerPage; split_ifs <;> omega

/-- C7 (amended): for every page and perPage, both pagination helpers apply
the spec's fallbacks — page below 1 becomes 1, perPage outside (0, 1000]
becomes 10 — and the applied zero-based offset is `(page-1)*perPage` computed
in Go's 64-bit integer arithmetic; it equals the mathematical product
`(page-1)*perPage` whenever that product fits in the int64 range, but wraps
for astronomically large pages (see the counterexample). -/
theorem c7_pagination_fallbacks (db : GormDB) (page perPage : Int) :
    (ApplyPagination db page perPage).limitVal = some (specEffectivePerPage perPage)
  ∧ (ApplyPagination db page perPage).offsetVal
      = some (wrap64 ((specEffectivePage page - 1) * specEffectivePerPage perPage))
  ∧ CountAndPaginateQuery db page perPage = ApplyPagination db page perPage
  ∧ ((specEffectivePage page - 1) * specEffectivePerPage perPage ≤ 2 ^ 63 - 1 →
      (ApplyPagination db page perPage).offsetVal
        = some ((specEffectivePage page - 1) * specEffectivePerPage perPage)) := by
  have hpage : 1 ≤ specEffectivePage page := by
    unfold specEffectivePage; split <;> omega
  have hpp : 1 ≤ specEffectivePerPage perPage := by
    unfold specEffectivePerPage; split <;> omega
  refine ⟨by rw [applyPagination_eq], by rw [applyPagination_eq], ?_, ?_⟩
  · have h1 : CountAndPaginateQuery db page perPage
        = ApplyPagination db (specEffectivePage page) (specEffectivePerPage perPage) := rfl
    rw [h1, applyPagination_eq, applyPagination_eq, specEffectivePage_idem,
      specEffectivePerPage_idem]
  · intro hfit
    rw [applyPagination_eq]
    have h0 : 0 ≤ (specEffectivePage page - 1) * specEffectivePerPage perPage :=
      mul_nonneg (by omega) (by omega)
    rw [wrap64_eq_self _ (by omega) hfit]

/-- C7 witness: at page 0 and perPage 2000 both fallbacks fire (page 1,
perPage 10) and the applied offset is the exact product 0. -/
theorem c7_pagination_fallbacks_witness :
    (ApplyPagination ⟨none, none⟩ 0 2000).limitVal = some 10
  ∧ (ApplyPagination ⟨none, none⟩ 0 2000).offsetVal = some 0 := by
  have h := c7_pagination_fallbacks ⟨none, none⟩ 0 2000
  refine ⟨h.1.trans (by decide), (h.2.2.2 (by decide)).trans (by decide)⟩

/-- C7 counterexample: Go computes the offset in 64-bit integers, so at
page = 9223372036854775807 (the largest int, reachable from a query string)
and perPage = 10 the applied offset is the wrapped value -20, not the
mathematical product `(page-1)*perPage` the claim states. -/
theorem c7_counterexample :
    (ApplyPagination ⟨none, none⟩ 9223372036854775807 10).offsetVal = some (-20)
  ∧ (CountAndPaginateQuery ⟨none, none⟩ 9223372036854775807 10).offsetVal = some (-20)
  ∧ ((9223372036854775807 - 1) * 10 : Int) ≠ -20 := by
  refine ⟨by decide, by decide, by decide⟩

/-- C5: when no skipper bypasses the check and the Authorization header is
absent (Echo's `Header.Get` returns "" for an absent header), the JWT
middleware writes the 401 unauthorized response whose body carries the fixed
message "missing authorization header"; the result is a `respond`, never a
`proceed`, so the wrapped handler is not invoked. -/
theorem c5_missing_auth_header (config : JWTConfig) (req : EchoRequest) (now : Int)
    (hskip : skipperBypasses config.skipperFunc req = false)
    (hheader : req.authHeader = "") :
    JWTMiddlewareHandle config req now = .respond 401 ⟨false, "missing authorization header"⟩ := by
  unfold JWTMiddlewareHandle
  rw [hskip]
  simp [hheader]

/-- C5 witness: a concrete config with no skipper and a request with no
Authorization header. -/
theorem c5_missing_auth_header_witness :
    JWTMiddlewareHandle ⟨"k", false, none⟩ ⟨""⟩ 0
      = .respond 401 ⟨false, "missing authorization header"⟩ :=
  c5_missing_auth_header ⟨"k", false, none⟩ ⟨""⟩ 0 rfl rfl

/-- C4: both validators reject every well-formed token whose signing
algorithm is outside the HMAC family, for every secret, signature, and
verification instant — in particular even when the token's signature equals
the MAC that would verify: the keyfunc rejects the method before any
signature comparison happens. -/
theorem c4_non_hmac_rejected (t : JWTTokenData BasicPayload) (u : JWTTokenData CustomPayload)
    (secretKey : String) (now : Int)
    (ht : t.alg.isHMAC = false) (hu : u.alg.isHMAC = false) :
    ValidateToken (.wellFormed t) secretKey now = .error .keyfuncInvalidToken
  ∧ ValidateCustomToken (.wellFormed u) secretKey now = .error .keyfuncInvalidToken := by
  constructor
  · unfold ValidateToken jwtParseWithClaims
    simp [ht]
  · unfold ValidateCustomToken jwtParseWithClaims
    simp [hu]

/-- An RS256 token whose signature even matches the HMAC tag that would
verify under secret "k". -/
def c4BasicTok : JWTTokenData BasicPayload :=
  { alg := .RS256, payload := ⟨1, "e", "r"⟩, exp := some 100, nbf := none, iat := some 0,
    sig := hmacMac .RS256
      (signingInput encodeBasicPayload .RS256 ⟨1, "e", "r"⟩ (some 100) none (some 0)) "k" }

/-- An ES256 custom token in the same situation. -/
def c4CustomTok : JWTTokenData CustomPayload :=
  { alg := .ES256, payload := [("user_id", .jnum 1)], exp := some 100, nbf := none,
    iat := some 0,
    sig := hmacMac .ES256
      (signingInput encodeCustomPayload .ES256 [("user_id", .jnum 1)] (some 100) none (some 0)) "k" }

/-- C4 witness: the two concrete non-HMAC tokens above are rejected at
instant 0 under the very secret their signatures were tagged with. -/
theorem c4_non_hmac_rejected_witness :
    ValidateToken (.wellFormed c4BasicTok) "k" 0 = .error .keyfuncInvalidToken
  ∧ ValidateCustomToken (.wellFormed c4CustomTok) "k" 0 = .error .keyfuncInvalidToken :=
  c4_non_hmac_rejected c4BasicTok c4CustomTok "k" 0 rfl rfl

/-- C3: the issue/validate round trip.  For every payload, secret, positive
ttl and issuing instant: validating the issued token with the same secret
strictly before the expiry instant `tIss + ttl` returns exactly the original
payload (user id, email, role, with the embedded expiry and issued-at);
validating strictly after the expiry instant fails with the jwt library's
expired-token error, whose message is "token has invalid claims: token is
expired". -/
theorem c3_roundtrip (userID : Int) (email role secretKey : String)
    (ttl tIss tVal : Int) (httl : 0 < ttl) :
    (tVal < tIss + ttl →
      ValidateToken (.wellFormed (GenerateToken userID email role secretKey ttl tIss))
          secretKey tVal
        = .ok ⟨userID, email, role, some (tIss + ttl), none, some tIss⟩)
  ∧ (tIss + ttl < tVal →
      ValidateToken (.wellFormed (GenerateToken userID email role secretKey ttl tIss))
          secretKey tVal
        = .error .claimsExpired
      ∧ JWTError.message .claimsExpired = "token has invalid claims: token is expired") := by
  constructor
  · intro hbefore
    unfold ValidateToken jwtParseWithClaims GenerateToken basicSig
    simp [Alg.isHMAC, expOK, nbfOK, claimsOfBasic, hbefore, not_lt_of_lt hbefore, le_of_lt hbefore]
  · intro hafter
    refine ⟨?_, rfl⟩
    unfold ValidateToken jwtParseWithClaims GenerateToken basicSig
    simp [Alg.isHMAC, expOK, nbfOK, not_lt_of_lt hafter, le_of_lt hafter]

/-- C3 witness: issuing at instant 0 with ttl 10 under secret "k" validates
to the original payload at instant 5 and is expired at instant 20. -/
theorem c3_roundtrip_witness :
    ValidateToken (.wellFormed (GenerateToken 1 "e" "r" "k" 10 0)) "k" 5
      = .ok ⟨1, "e", "r", some 10, none, some 0⟩
  ∧ ValidateToken (.wellFormed (GenerateToken 1 "e" "r" "k" 10 0)) "k" 20
      = .error .claimsExpired :=
  ⟨(c3_roundtrip 1 "e" "r" "k" 10 0 5 (by decide)).1 (by decide),
   ((c3_roundtrip 1 "e" "r" "k" 10 0 20 (by decide)).2 (by decide)).1⟩

/-- The spec's acceptance condition for a basic token, with the extra
conditions the code actually enforces spelled out: HMAC-family algorithm,
signature equal to the MAC of the signing input under the secret, expiry
(when present) strictly after the instant, and not-before (when present) not
after the instant. -/
def acceptBasic (t : JWTTokenData BasicPayload) (secretKey : String) (now : Int) : Prop :=
  t.alg.isHMAC = true
  ∧ t.sig = hmacMac t.alg (signingInput encodeBasicPayload t.alg t.payload t.exp t.nbf t.iat) secretKey
  ∧ expOK t.exp now = true
  ∧ nbfOK t.nbf now = true

/-- The same acceptance condition for a custom token. -/
def acceptCustom (u : JWTTokenData CustomPayload) (secretKey : String) (now : Int) : Prop :=
  u.alg.isHMAC = true
  ∧ u.sig = hmacMac u.alg (signingInput encodeCustomPayload u.alg u.payload u.exp u.nbf u.iat) secretKey
  ∧ expOK u.exp now = true
  ∧ nbfOK u.nbf now = true

/-- C1 (amended): acceptance is an if-and-only-if, but against the full
condition the code enforces, not only signature plus expiry: a well-formed
token is accepted — and then the decoded claims are returned — exactly when
its algorithm is in the HMAC family, its signature verifies under the secret,
its expiry (when present; a token without an expiry never expires) is
strictly after the verification instant, and its not-before (when present) is
not in the future; malformed token strings are always rejected. -/
theorem c1_acceptance_characterization (t : JWTTokenData BasicPayload)
    (u : JWTTokenData CustomPayload) (secretKey : String) (now : Int) :
    (ValidateToken (.wellFormed t) secretKey now = .ok (claimsOfBasic t)
      ↔ acceptBasic t secretKey now)
  ∧ ((∃ c, ValidateToken (.wellFormed t) secretKey now = .ok c)
      ↔ acceptBasic t secretKey now)
  ∧ (ValidateCustomToken (.wellFormed u) secretKey now = .ok u.payload
      ↔ acceptCustom u secretKey now)
  ∧ ((∃ d, ValidateCustomToken (.wellFormed u) secretKey now = .ok d)
      ↔ acceptCustom u secretKey now)
  ∧ ValidateToken .malformed secretKey now = .error .malformed
  ∧ ValidateCustomToken .malformed secretKey now = .error .malformed := by
  have hb : ∀ c, ValidateToken (.wellFormed t) secretKey now = .ok c
      → (acceptBasic t secretKey now ∧ c = claimsOfBasic t) := by
    intro c h
    unfold ValidateToken jwtParseWithClaims at h
    by_cases h1 : t.alg.isHMAC <;> simp [h1] at h
    by_cases h2 : t.sig = hmacMac t.alg
        (signingInput encodeBasicPayload t.alg t.payload t.exp t.nbf t.iat) secretKey <;>
      simp [h2] at h
    by_cases h3 : expOK t.exp now <;> simp [h3] at h
    by_cases h4 : nbfOK t.nbf now <;> simp [h4] at h
    refine ⟨⟨h1, h2, h3, h4⟩, ?_⟩
    cases he : t.exp with
    | none => simpa [he] using h.symm
    | some e =>
      rw [he] at h
      have : ¬ e < now := by
        simp [expOK, he] at h3
        omega
      simpa [this] using h.symm
  have hbacc : acceptBasic t secretKey now
      → ValidateToken (.wellFormed t) secretKey now = .ok (claimsOfBasic t) := by
    rintro ⟨h1, h2, h3, h4⟩
    unfold ValidateToken jwtParseWithClaims
    simp only [h1, h2, h3, h4]
    cases he : t.exp with
    | none => simp [he]
    | some e =>
      have : ¬ e < now := by
        simp [expOK, he] at h3
        omega
      simp [he, this]
  have hc : ∀ d, ValidateCustomToken (.wellFormed u) secretKey now = .ok d
      → (acceptCustom u secretKey now ∧ d = u.payload) := by
    intro d h
    unfold ValidateCustomToken jwtParseWithClaims at h
    by_cases h1 : u.alg.isHMAC <;> simp [h1] at h
    by_cases h2 : u.sig = hmacMac u.alg
        (signingInput encodeCustomPayload u.alg u.payload u.exp u.nbf u.iat) secretKey <;>
      simp [h2] at h
    by_cases h3 : expOK u.exp now <;> simp [h3] at h
    by_cases h4 : nbfOK u.nbf now <;> simp [h4] at h
    refine ⟨⟨h1, h2, h3, h4⟩, ?_⟩
    cases he : u.exp with
    | none => simpa [he] using h.symm
    | some e =>
      rw [he] at h
      have : ¬ e < now := by
        simp [expOK, he] at h3
        omega
      simpa [this] using h.symm
  have hcacc : acceptCustom u secretKey now
      → ValidateCustomToken (.wellFormed u) secretKey now = .ok u.payload := by
    rintro ⟨h1, h2, h3, h4⟩
    unfold ValidateCustomToken jwtParseWithClaims
    simp only [h1, h2, h3, h4]
    cases he : u.exp with
    | none => simp [he]
    | some e =>
      have : ¬ e < now := by
        simp [expOK, he] at h3
        omega
      simp [he, this]
  refine ⟨⟨fun h => (hb _ h).1, hbacc⟩,
    ⟨fun ⟨c, h⟩ => (hb c h).1, fun ha => ⟨claimsOfBasic t, hbacc ha⟩⟩,
    ⟨fun h => (hc _ h).1, hcacc⟩,
    ⟨fun ⟨d, h⟩ => (hc d h).1, fun ha => ⟨u.payload, hcacc ha⟩⟩, rfl, rfl⟩

/-- A token that is correctly HS256-signed under "s", has expiry 200, and a
not-before of 150. -/
def c1NbfTok : JWTTokenData BasicPayload :=
  { alg := .HS256, payload := ⟨1, "a", "r"⟩, exp := some 200, nbf := some 150, iat := some 0,
    sig := basicSig .HS256 ⟨1, "a", "r"⟩ (some 200) (some 150) (some 0) "s" }

/-- C1 counterexample: at instant 100 the claim's acceptance condition holds
for `c1NbfTok` — the HMAC signature verifies under "s" and the embedded
expiry 200 is strictly after 100 — yet the token is rejected, because the
jwt library also validates the not-before claim.  So signature plus expiry is
not the whole acceptance condition. -/
theorem c1_counterexample :
    c1NbfTok.alg.isHMAC = true
  ∧ c1NbfTok.sig = hmacMac c1NbfTok.alg
      (signingInput encodeBasicPayload c1NbfTok.alg c1NbfTok.payload c1NbfTok.exp
        c1NbfTok.nbf c1NbfTok.iat) "s"
  ∧ c1NbfTok.exp = some 200 ∧ ((100 : Int) < 200)
  ∧ ValidateToken (.wellFormed c1NbfTok) "s" 100 = .error .claimsNotYetValid := by
  refine ⟨rfl, rfl, rfl, by decide, by decide⟩

/-- The configuration of the C2 scenario: basic tokens, secret "k1", no
skipper. -/
def c2Config : JWTConfig := ⟨"k1", false, none⟩

/-- A token correctly HS256-signed under "k1", issued at instant 0 with ttl
50 — well-formed, correctly signed, and expired at instant 100. -/
def c2ExpiredTok : JWTTokenData BasicPayload := GenerateToken 7 "u" "admin" "k1" 50 0

/-- The request presenting that token as `Authorization: Bearer <token>`. -/
def c2Request : EchoRequest := ⟨"Bearer " ++ encodeCompactBasic c2ExpiredTok⟩

/-- C2: evaluation of the code at the failing input.  For the well-formed,
correctly signed but expired token above, `ValidateToken` returns the jwt
library's invalid-claims/expired error — not the package's distinguished
`auth.ErrExpiredToken`, because golang-jwt v5's `ParseWithClaims` already
rejects expired tokens before the source's own expiry check can run — and the
middleware's `err == auth.ErrExpiredToken` dispatch therefore misses, so the
response is 401 "invalid token" instead of the claimed 401 "token expired".
(The compact wire decoding round-trips the token, so the middleware really
validates this token.) -/
theorem c2_expired_token_gets_invalid_token :
    ValidateToken (.wellFormed c2ExpiredTok) "k1" 100 = .error .claimsExpired
  ∧ JWTError.claimsExpired ≠ JWTError.errExpiredToken
  ∧ JWTError.message .errExpiredToken = "token expired"
  ∧ parseCompactBasic (encodeCompactBasic c2ExpiredTok) = .wellFormed c2ExpiredTok
  ∧ JWTMiddlewareHandle c2Config c2Request 100 = .respond 401 ⟨false, "invalid token"⟩ := by
  refine ⟨by decide, by decide, rfl, by decide, by decide⟩

/-- The helper `ValidateRequired` succeeds exactly when every map entry is non-blank. -/
theorem validateRequired_true_iff (l : List (String × String)) :
    (ValidateRequired l).1 = true ↔ ∀ kv ∈ l, validatorIsEmpty kv.2 = false := by
  induction l with
  | nil => simp [ValidateRequired]
  | cons kv rest ih =>
    unfold ValidateRequired
    by_cases hb : validatorIsEmpty kv.2
    · simp [hb]
    · rw [if_neg hb, ih]
      simp only [List.mem_cons]
      constructor
      · rintro h x (rfl | hx)
        · simpa using hb
        · exact h x hx
      · intro h x hx
        exact h x (Or.inr hx)

/-- On failure, `ValidateRequired` reports a blank entry of the map by name. -/
theorem validateRequired_false_names (l : List (String × String))
    (h : (ValidateRequired l).1 = false) :
    ∃ kv ∈ l, validatorIsEmpty kv.2 = true
      ∧ (ValidateRequired l).2 = kv.1 ++ " is required" := by
  induction l with
  | nil => simp [ValidateRequired] at h
  | cons kv rest ih =>
    unfold ValidateRequired at h ⊢
    by_cases hb : validatorIsEmpty kv.2
    · exact ⟨kv, List.mem_cons_self kv rest, hb, by rw [if_pos hb]⟩
    · rw [if_neg hb] at h ⊢
      obtain ⟨x, hx, hbx, hmsg⟩ := ih h
      exact ⟨x, List.mem_cons_of_mem kv hx, hbx, hmsg⟩

/-- Every entry of an updated map is an old entry or the written pair. -/
theorem mapUpdate_mem_of {m : List (String × String)} {k v : String}
    {x : String × String} (hx : x ∈ mapUpdate m k v) : x ∈ m ∨ x = (k, v) := by
  induction m with
  | nil => simpa [mapUpdate] using hx
  | cons kv rest ih =>
    obtain ⟨ka, va⟩ := kv
    unfold mapUpdate at hx
    by_cases he : ka = k
    · rw [if_pos he] at hx
      rcases List.mem_cons.mp hx with h | h
      · exact Or.inr h
      · exact Or.inl (List.mem_cons_of_mem _ h)
    · rw [if_neg he] at hx
      rcases List.mem_cons.mp hx with h | h
      · exact Or.inl (h ▸ List.mem_cons_self _ _)
      · rcases ih h with h2 | h2
        · exact Or.inl (List.mem_cons_of_mem _ h2)
        · exact Or.inr h2

/-- The written pair is always an entry of the updated map. -/
theorem mapUpdate_self_mem (m : List (String × String)) (k v : String) :
    (k, v) ∈ mapUpdate m k v := by
  induction m with
  | nil => simp [mapUpdate]
  | cons kv rest ih =>
    obtain ⟨ka, va⟩ := kv
    unfold mapUpdate
    by_cases he : ka = k
    · rw [if_pos he]
      exact List.mem_cons_self _ _
    · rw [if_neg he]
      exact List.mem_cons_of_mem _ ih

/-- Updating a different key preserves an entry. -/
theorem mapUpdate_mem_preserve {m : List (String × String)} {k v : String}
    (hm : (k, v) ∈ m) (k1 v1 : String) (hne : k ≠ k1) :
    (k, v) ∈ mapUpdate m k1 v1 := by
  induction m with
  | nil => simp at hm
  | cons kv rest ih =>
    obtain ⟨ka, va⟩ := kv
    unfold mapUpdate
    rcases List.mem_cons.mp hm with h | h
    · obtain ⟨rfl, rfl⟩ : k = ka ∧ v = va := by simpa [Prod.ext_iff] using h
      rw [if_neg (fun hc => hne hc)]
      exact List.mem_cons_self _ _
    · by_cases he : ka = k1
      · rw [if_pos he]
        exact List.mem_cons_of_mem _ h
      · rw [if_neg he]
        exact List.mem_cons_of_mem _ (ih h)

/-- Soundness of the `fieldsToCheck` accumulation: every entry of the folded
map comes from the accumulator or is `(key, g key)` for a processed key. -/
theorem foldl_mapUpdate_sound (g : String → String) (keys : List String)
    (acc : List (String × String)) (x : String × String)
    (hx : x ∈ keys.foldl (fun a k => mapUpdate a k (g k)) acc) :
    x ∈ acc ∨ (x.1 ∈ keys ∧ x.2 = g x.1) := by
  induction keys generalizing acc with
  | nil => exact Or.inl hx
  | cons k ks ih =>
    rw [List.foldl_cons] at hx
    rcases ih (mapUpdate acc k (g k)) hx with h | h
    · rcases mapUpdate_mem_of h with h2 | h2
      · exact Or.inl h2
      · right
        constructor
        · rw [h2]
          simp
        · rw [h2]
    · exact Or.inr ⟨List.mem_cons_of_mem k h.1, h.2⟩

/-- Folding more keys preserves an entry of the canonical `(k, g k)` form. -/
theorem foldl_mapUpdate_preserve (g : String → String) (keys : List String)
    (acc : List (String × String)) (k : String) (hk : (k, g k) ∈ acc) :
    (k, g k) ∈ keys.foldl (fun a k1 => mapUpdate a k1 (g k1)) acc := by
  induction keys generalizing acc with
  | nil => exact hk
  | cons k1 ks ih =>
    rw [List.foldl_cons]
    refine ih _ ?_
    by_cases he : k = k1
    · rw [he]
      exact mapUpdate_self_mem acc k1 (g k1)
    · exact mapUpdate_mem_preserve hk k1 (g k1) he

/-- Completeness of the `fieldsToCheck` accumulation: every processed key
appears with its collected value. -/
theorem foldl_mapUpdate_complete (g : String → String) (keys : List String)
    (acc : List (String × String)) (k : String) (hk : k ∈ keys) :
    (k, g k) ∈ keys.foldl (fun a k1 => mapUpdate a k1 (g k1)) acc := by
  induction keys generalizing acc with
  | nil => simp at hk
  | cons k1 ks ih =>
    rw [List.foldl_cons]
    rcases List.mem_cons.mp hk with h | h
    · exact foldl_mapUpdate_preserve g ks _ k (h ▸ mapUpdate_self_mem acc k1 (g k1))
    · exact ih _ h

/-- Entries of the `fieldsToCheck` map are exactly the required names paired
with the value the code reads for them. -/
theorem fieldsToCheckOf_mem (fields : List StructField) (requiredJSON : List String) :
    (∀ x ∈ fieldsToCheckOf fields requiredJSON,
        x.1 ∈ requiredJSON ∧ x.2 = requiredFieldValue fields x.1)
  ∧ (∀ k ∈ requiredJSON,
        (k, requiredFieldValue fields k) ∈ fieldsToCheckOf fields requiredJSON) := by
  constructor
  · intro x hx
    rcases foldl_mapUpdate_sound (requiredFieldValue fields) requiredJSON [] x hx with h | h
    · simp at h
    · exact h
  · intro k hk
    exact foldl_mapUpdate_complete (requiredFieldValue fields) requiredJSON [] k hk

/-- C6 (amended): after a successful decode, for every required-name list and
every admissible map iteration order, validation fails exactly when some
named field's code-visible value (its string value post-decode; names bound
to non-string fields or to no field read as empty) is empty or
whitespace-only after trimming; on failure the message names one such
offending field — not necessarily the first, since Go map iteration order is
unspecified — and `BindAndRequireFields` writes the 400 rejection itself
(also writing 400 "invalid request body" when the decode fails), while on
success it writes nothing and returns true. -/
theorem c6_required_fields_postdecode (fields : List StructField)
    (requiredJSON : List String) (enum : List (String × String))
    (henum : validEnum fields requiredJSON enum) :
    ((RequireFields fields requiredJSON enum).1 = false
      ↔ ∃ k ∈ requiredJSON, validatorIsEmpty (requiredFieldValue fields k) = true)
  ∧ ((RequireFields fields requiredJSON enum).1 = false →
      ∃ k ∈ requiredJSON, validatorIsEmpty (requiredFieldValue fields k) = true
        ∧ (RequireFields fields requiredJSON enum).2 = k ++ " is required")
  ∧ (BindAndRequireFields (some fields) requiredJSON enum).ok
      = (RequireFields fields requiredJSON enum).1
  ∧ ((RequireFields fields requiredJSON enum).1 = false →
      (BindAndRequireFields (some fields) requiredJSON enum).written
        = some (400, ⟨false, (RequireFields fields requiredJSON enum).2⟩))
  ∧ ((RequireFields fields requiredJSON enum).1 = true →
      (BindAndRequireFields (some fields) requiredJSON enum).written = none)
  ∧ (BindAndRequireFields none requiredJSON enum).written
      = some (400, ⟨false, "invalid request body"⟩) := by
  have hperm : ∀ kv : String × String,
      kv ∈ enum ↔ kv ∈ fieldsToCheckOf fields requiredJSON :=
    fun kv => henum.mem_iff
  have hmain : (RequireFields fields requiredJSON enum).1 = false
      ↔ ∃ k ∈ requiredJSON, validatorIsEmpty (requiredFieldValue fields k) = true := by
    by_cases hreq : requiredJSON = []
    · subst hreq
      simp [RequireFields]
    · unfold RequireFields
      rw [if_neg hreq]
      constructor
      · intro hfalse
        obtain ⟨kv, hkv, hblank, _⟩ := validateRequired_false_names enum hfalse
        obtain ⟨hk1, hk2⟩ := (fieldsToCheckOf_mem fields requiredJSON).1 kv ((hperm kv).mp hkv)
        exact ⟨kv.1, hk1, hk2 ▸ hblank⟩
      · rintro ⟨k, hk, hblank⟩
        have hmem : (k, requiredFieldValue fields k) ∈ enum :=
          (hperm _).mpr ((fieldsToCheckOf_mem fields requiredJSON).2 k hk)
        cases hv : (ValidateRequired enum).1 with
        | false => rfl
        | true =>
          have := (validateRequired_true_iff enum).mp hv _ hmem
          simp only at this
          rw [hblank] at this
          cases this
  have hnames : (RequireFields fields requiredJSON enum).1 = false →
      ∃ k ∈ requiredJSON, validatorIsEmpty (requiredFieldValue fields k) = true
        ∧ (RequireFields fields requiredJSON enum).2 = k ++ " is required" := by
    intro hfalse
    by_cases hreq : requiredJSON = []
    · subst hreq
      simp [RequireFields] at hfalse
    · unfold RequireFields at hfalse ⊢
      rw [if_neg hreq] at hfalse ⊢
      obtain ⟨kv, hkv, hblank, hmsg⟩ := validateRequired_false_names enum hfalse
      obtain ⟨hk1, hk2⟩ := (fieldsToCheckOf_mem fields requiredJSON).1 kv ((hperm kv).mp hkv)
      exact ⟨kv.1, hk1, hk2 ▸ hblank, hmsg⟩
  have hsome : BindAndRequireFields (some fields) requiredJSON enum
      = (match RequireFields fields requiredJSON enum with
         | (true, _) => ⟨true, none⟩
         | (false, msg) => ⟨false, some (400, ⟨false, msg⟩)⟩) := rfl
  refine ⟨hmain, hnames, ?_, ?_, ?_, rfl⟩
  · rcases hR : RequireFields fields requiredJSON enum with ⟨ok, msg⟩
    rw [hsome, hR]
    cases ok <;> rfl
  · intro hfalse
    rcases hR : RequireFields fields requiredJSON enum with ⟨ok, msg⟩
    rw [hR] at hfalse
    simp only at hfalse
    subst hfalse
    rw [hsome, hR]
  · intro htrue
    rcases hR : RequireFields fields requiredJSON enum with ⟨ok, msg⟩
    rw [hR] at htrue
    simp only at htrue
    subst htrue
    rw [hsome, hR]

/-- A decoded request whose fields "a" (empty) and "b" (whitespace-only) are
both blank. -/
def c6Fields : List StructField := [⟨"a", .strV ""⟩, ⟨"b", .strV " "⟩]

/-- An admissible Go map iteration order that visits "b" before "a". -/
def c6Enum : List (String × String) := [("b", " "), ("a", "")]

/-- C6 counterexample: with required fields ["a", "b"] both blank, the map
iteration order that visits "b" first is admissible (Go map iteration order
is unspecified), and under it the failure message is "b is required" — not
"a is required", the first offending field the claim promises. -/
theorem c6_counterexample :
    validEnum c6Fields ["a", "b"] c6Enum
  ∧ (RequireFields c6Fields ["a", "b"] c6Enum).1 = false
  ∧ (RequireFields c6Fields ["a", "b"] c6Enum).2 = "b is required"
  ∧ validatorIsEmpty (requiredFieldValue c6Fields "a") = true
  ∧ ("b is required" : String) ≠ "a is required" := by
  refine ⟨?_, by decide, by decide, by decide, by decide⟩
  show List.Perm c6Enum (fieldsToCheckOf c6Fields ["a", "b"])
  decide

/-- C6 witness for the amended theorem, at the identity iteration order. -/
theorem c6_required_fields_postdecode_witness :
    (RequireFields c6Fields ["a", "b"] (fieldsToCheckOf c6Fields ["a", "b"])).1 = false :=
  (c6_required_fields_postdecode c6Fields ["a", "b"] (fieldsToCheckOf c6Fields ["a", "b"])
    (List.Perm.refl _)).1.mpr ⟨"a", by decide, by decide⟩
